import Mathlib

/-!
Shallow embedding of the meeting-minutes CRUD handlers
(`src/actions/index.ts` together with the `astro:db` table definitions).

Modelling conventions:
* Timestamps (`Date`) are `Nat`; `new Date()` inside a handler is an explicit
  `now : Nat` parameter, and `crypto.randomUUID()` an explicit `freshId`
  parameter (the spec's design notes ask for ambient context as parameters).
* The database is a record of three row lists.  `db.select().where(p).limit(1)`
  is `List.find?`, `db.update().set(vals).where(p)` maps the row transformer
  over matching rows, `db.delete().where(p)` filters them out, and
  `.returning()` with `[x] = ...` destructuring yields the first affected row.
* A SQL `NULL` in the text primary-key column of `MeetingSections` /
  `ActionItems` (which has no default and which the insert branches never
  supply) is `none` in an `Option String`-typed `id` field.  Meetings always
  get an id from the handler, so `Meeting.id` is a plain `String`.
* JavaScript truthiness tests on optional strings (`if (input.id)`,
  `input?.meetingId && ...`, `input?.meetingId ? ... : true`) are the
  `truthy` predicate below: `none` and `some ""` are falsy.
* Handlers return `Except ActionErr (result × DB)`; an `ActionError` throw is
  `Except.error`, which carries no database, matching that a throwing handler
  performs no (further) mutation.
-/

/-- The two `ActionError` codes the handlers throw. -/
inductive ActionErr where
  | unauthorized
  | notFound
deriving Repr, DecidableEq

/-- A row of the `Meetings` table. -/
structure Meeting where
  id : String
  userId : String
  title : String
  sourceType : Option String
  sourceUrl : Option String
  scheduledAt : Option Nat
  durationMinutes : Option Nat
  createdAt : Nat
  updatedAt : Nat
deriving Repr, DecidableEq

/-- A row of the `MeetingSections` table.  `id` is `Option String` because the
text primary-key column has no default and the insert branch of `saveSection`
supplies no id, so the stored value can be SQL `NULL` (`none`). -/
structure MeetingSection where
  id : Option String
  meetingId : String
  type : String
  orderIndex : Nat
  content : String
  createdAt : Nat
deriving Repr, DecidableEq

/-- A row of the `ActionItems` table; `id` as in `MeetingSection`. -/
structure ActionItem where
  id : Option String
  meetingId : String
  assignee : Option String
  description : String
  dueDate : Option Nat
  status : Option String
  createdAt : Nat
  updatedAt : Nat
deriving Repr, DecidableEq

/-- The database: the three tables. -/
structure DB where
  meetings : List Meeting
  sections : List MeetingSection
  actionItems : List ActionItem
deriving Repr, DecidableEq

/-- JavaScript truthiness of an optional string: `undefined` and `""` are
falsy, every non-empty string is truthy. -/
def truthy : Option String → Bool
  | none => false
  | some s => s != ""

/-- Handler helper `requireUser`: resolves the caller identity (`context.locals.user`),
throwing `UNAUTHORIZED` when absent. -/
def requireUser (caller : Option String) : Except ActionErr String :=
  match caller with
  | none => throw ActionErr.unauthorized
  | some u => pure u

/-- Input of `createMeeting` after zod validation. -/
structure CreateMeetingInput where
  id : Option String
  title : String
  sourceType : Option String
  sourceUrl : Option String
  scheduledAt : Option Nat
  durationMinutes : Option Nat
deriving Repr, DecidableEq

/-- Handler `createMeeting`: inserts a meeting owned by the caller, with
`input.id ?? crypto.randomUUID()` (nullish coalescing, so an empty string id
is kept) and `createdAt = updatedAt = now`. -/
def createMeeting (db : DB) (caller : Option String) (inp : CreateMeetingInput)
    (now : Nat) (freshId : String) : Except ActionErr (Meeting × DB) := do
  let user ← requireUser caller
  let m : Meeting :=
    { id := inp.id.getD freshId
      userId := user
      title := inp.title
      sourceType := inp.sourceType
      sourceUrl := inp.sourceUrl
      scheduledAt := inp.scheduledAt
      durationMinutes := inp.durationMinutes
      createdAt := now
      updatedAt := now }
  pure (m, { db with meetings := db.meetings ++ [m] })

/-- Input of `updateMeeting` after zod validation: `id` required, the five
mutable fields optional. -/
structure UpdateMeetingInput where
  id : String
  title : Option String
  sourceType : Option String
  sourceUrl : Option String
  scheduledAt : Option Nat
  durationMinutes : Option Nat
deriving Repr, DecidableEq

/-- The test `Object.keys(updateData).length === 0`: true iff none of the five optional
fields of the input is present (only defined values enter `updateData`). -/
def UpdateMeetingInput.patchEmpty (inp : UpdateMeetingInput) : Bool :=
  inp.title.isNone && inp.sourceType.isNone && inp.sourceUrl.isNone &&
    inp.scheduledAt.isNone && inp.durationMinutes.isNone

/-- The row transformer of `updateMeeting`'s `db.update().set({...updateData,
updatedAt: new Date()})`: each field present in the input overwrites the
stored value, absent fields are left untouched, `updatedAt` is stamped. -/
def applyMeetingPatch (inp : UpdateMeetingInput) (now : Nat) (m : Meeting) : Meeting :=
  { m with
    title := inp.title.getD m.title
    sourceType := inp.sourceType.orElse fun _ => m.sourceType
    sourceUrl := inp.sourceUrl.orElse fun _ => m.sourceUrl
    scheduledAt := inp.scheduledAt.orElse fun _ => m.scheduledAt
    durationMinutes := inp.durationMinutes.orElse fun _ => m.durationMinutes
    updatedAt := now }

/-- Handler `updateMeeting`: loads the meeting by id and owner (`NOT_FOUND` if no
match), returns it unchanged when no optional field is present, otherwise
patches the present fields, stamps `updatedAt = now` and persists. -/
def updateMeeting (db : DB) (caller : Option String) (inp : UpdateMeetingInput)
    (now : Nat) : Except ActionErr (Meeting × DB) := do
  let user ← requireUser caller
  match db.meetings.find? fun m => m.id == inp.id && m.userId == user with
  | none => throw ActionErr.notFound
  | some existing =>
    if inp.patchEmpty then
      pure (existing, db)
    else
      pure (applyMeetingPatch inp now existing,
        { db with meetings := db.meetings.map fun m =>
            if m.id == inp.id && m.userId == user then applyMeetingPatch inp now m else m })

/-- Handler `listMeetings`: all meetings owned by the caller. -/
def listMeetings (db : DB) (caller : Option String) :
    Except ActionErr (List Meeting) := do
  let user ← requireUser caller
  pure (db.meetings.filter fun m => m.userId == user)

/-- Handler `deleteMeeting`: deletes the meeting matching id and owner, throwing
`NOT_FOUND` when nothing was deleted. -/
def deleteMeeting (db : DB) (caller : Option String) (id : String) :
    Except ActionErr (Meeting × DB) := do
  let user ← requireUser caller
  match db.meetings.find? fun m => m.id == id && m.userId == user with
  | none => throw ActionErr.notFound
  | some deleted =>
    pure (deleted,
      { db with meetings := db.meetings.filter fun m => !(m.id == id && m.userId == user) })

/-- Input of `saveSection` after zod validation. -/
structure SaveSectionInput where
  id : Option String
  meetingId : String
  type : String
  orderIndex : Nat
  content : String
deriving Repr, DecidableEq

/-- The `baseValues` of `saveSection` written into a stored row on update: every
column except `id` is overwritten, including `createdAt := now`. -/
def sectionBaseValuesOn (inp : SaveSectionInput) (now : Nat) (s : MeetingSection) :
    MeetingSection :=
  { s with
    meetingId := inp.meetingId
    type := inp.type
    orderIndex := inp.orderIndex
    content := inp.content
    createdAt := now }

/-- Handler `saveSection`: verifies the meeting is owned by the caller (`NOT_FOUND`
otherwise); with a truthy id, loads the section by id, fails `NOT_FOUND` when
absent or when its stored `meetingId` differs from the input, then overwrites
all columns of `baseValues`; with no (or a falsy) id, inserts `baseValues`
as a new row — `baseValues` carries no id. -/
def saveSection (db : DB) (caller : Option String) (inp : SaveSectionInput)
    (now : Nat) : Except ActionErr (MeetingSection × DB) := do
  let user ← requireUser caller
  match db.meetings.find? fun m => m.id == inp.meetingId && m.userId == user with
  | none => throw ActionErr.notFound
  | some _ =>
    if truthy inp.id then
      match db.sections.find? fun s => s.id == inp.id with
      | none => throw ActionErr.notFound
      | some existing =>
        if existing.meetingId != inp.meetingId then
          throw ActionErr.notFound
        else
          pure (sectionBaseValuesOn inp now existing,
            { db with sections := db.sections.map fun s =>
                if s.id == inp.id then sectionBaseValuesOn inp now s else s })
    else
      let row : MeetingSection :=
        { id := none
          meetingId := inp.meetingId
          type := inp.type
          orderIndex := inp.orderIndex
          content := inp.content
          createdAt := now }
      pure (row, { db with sections := db.sections ++ [row] })

/-- Input of `deleteSection` after zod validation. -/
structure DeleteSectionInput where
  id : String
  meetingId : String
deriving Repr, DecidableEq

/-- Handler `deleteSection`: verifies meeting ownership, deletes the section matching
both id and meetingId, `NOT_FOUND` when nothing was deleted. -/
def deleteSection (db : DB) (caller : Option String) (inp : DeleteSectionInput) :
    Except ActionErr (MeetingSection × DB) := do
  let user ← requireUser caller
  match db.meetings.find? fun m => m.id == inp.meetingId && m.userId == user with
  | none => throw ActionErr.notFound
  | some _ =>
    match db.sections.find? fun s => s.id == some inp.id && s.meetingId == inp.meetingId with
    | none => throw ActionErr.notFound
    | some deleted =>
      pure (deleted,
        { db with sections := db.sections.filter fun s =>
            !(s.id == some inp.id && s.meetingId == inp.meetingId) })

/-- Input of `saveActionItem` after zod validation. -/
structure SaveActionItemInput where
  id : Option String
  meetingId : String
  assignee : Option String
  description : String
  dueDate : Option Nat
  status : Option String
deriving Repr, DecidableEq

/-- The `baseValues` of `saveActionItem` written into a stored row on update: every
column except `id` is overwritten, including `createdAt := now` and
`updatedAt := now`; an absent optional input field overwrites the stored value
with SQL `NULL` (`none`). -/
def itemBaseValuesOn (inp : SaveActionItemInput) (now : Nat) (it : ActionItem) :
    ActionItem :=
  { it with
    meetingId := inp.meetingId
    assignee := inp.assignee
    description := inp.description
    dueDate := inp.dueDate
    status := inp.status
    createdAt := now
    updatedAt := now }

/-- Handler `saveActionItem`: verifies the meeting is owned by the caller; with a
truthy id, loads the item by id, fails `NOT_FOUND` when absent or when its
stored `meetingId` differs from the input, then overwrites all columns of
`baseValues`; otherwise inserts `baseValues` as a new row (no id supplied). -/
def saveActionItem (db : DB) (caller : Option String) (inp : SaveActionItemInput)
    (now : Nat) : Except ActionErr (ActionItem × DB) := do
  let user ← requireUser caller
  match db.meetings.find? fun m => m.id == inp.meetingId && m.userId == user with
  | none => throw ActionErr.notFound
  | some _ =>
    if truthy inp.id then
      match db.actionItems.find? fun it => it.id == inp.id with
      | none => throw ActionErr.notFound
      | some existing =>
        if existing.meetingId != inp.meetingId then
          throw ActionErr.notFound
        else
          pure (itemBaseValuesOn inp now existing,
            { db with actionItems := db.actionItems.map fun it =>
                if it.id == inp.id then itemBaseValuesOn inp now it else it })
    else
      let row : ActionItem :=
        { id := none
          meetingId := inp.meetingId
          assignee := inp.assignee
          description := inp.description
          dueDate := inp.dueDate
          status := inp.status
          createdAt := now
          updatedAt := now }
      pure (row, { db with actionItems := db.actionItems ++ [row] })

/-- Handler `listActionItems`: computes the ids of the caller's meetings; when the
supplied meetingId is truthy and not among them, throws `NOT_FOUND`; then
fetches all action items and keeps those whose meetingId is owned and — when
the supplied meetingId is truthy — equal to it. -/
def listActionItems (db : DB) (caller : Option String) (meetingId? : Option String) :
    Except ActionErr (List ActionItem) := do
  let user ← requireUser caller
  let allowedMeetingIds := (db.meetings.filter fun m => m.userId == user).map (·.id)
  if truthy meetingId? && !(allowedMeetingIds.contains (meetingId?.getD "")) then
    throw ActionErr.notFound
  else
    pure (db.actionItems.filter fun it =>
      allowedMeetingIds.contains it.meetingId &&
        (if truthy meetingId? then it.meetingId == meetingId?.getD "" else true))

/-! ## Fixtures: small concrete databases used by the closed theorems -/

/-- A meeting owned by user `alice`. -/
def mAlice : Meeting :=
  { id := "m1", userId := "alice", title := "Standup", sourceType := none,
    sourceUrl := none, scheduledAt := none, durationMinutes := none,
    createdAt := 1, updatedAt := 1 }

/-- A second meeting owned by `alice`. -/
def mAlice2 : Meeting :=
  { id := "m2", userId := "alice", title := "Retro", sourceType := none,
    sourceUrl := none, scheduledAt := none, durationMinutes := none,
    createdAt := 1, updatedAt := 1 }

/-- A meeting owned by user `bob`. -/
def mBob : Meeting :=
  { id := "mb", userId := "bob", title := "Planning", sourceType := none,
    sourceUrl := none, scheduledAt := none, durationMinutes := none,
    createdAt := 1, updatedAt := 1 }

/-- A stored section of meeting `m1` with `createdAt = 5`. -/
def sOne : MeetingSection :=
  { id := some "s1", meetingId := "m1", type := "notes", orderIndex := 1,
    content := "hi", createdAt := 5 }

/-- A stored section of meeting `m2`. -/
def sTwo : MeetingSection :=
  { id := some "s2", meetingId := "m2", type := "notes", orderIndex := 1,
    content := "other", createdAt := 5 }

/-- A stored action item of meeting `m1`, with every optional field set. -/
def iOne : ActionItem :=
  { id := some "i1", meetingId := "m1", assignee := some "carol",
    description := "ship it", dueDate := some 9, status := some "open",
    createdAt := 2, updatedAt := 3 }

/-- A stored action item of `bob`'s meeting `mb`. -/
def iBob : ActionItem :=
  { id := some "ib", meetingId := "mb", assignee := none,
    description := "secret", dueDate := none, status := none,
    createdAt := 2, updatedAt := 3 }

/-- A database with meetings of both users, two sections and two items. -/
def dbMain : DB :=
  { meetings := [mAlice, mAlice2, mBob]
    sections := [sOne, sTwo]
    actionItems := [iOne, iBob] }

/-! ## Helper lemmas -/

/-- When every stored meeting carrying the requested id has a different owner,
the ownership-filtered lookup finds nothing. -/
theorem ownedLookup_eq_none {db : DB} {mid u : String}
    (h : ∀ m ∈ db.meetings, m.id = mid → m.userId ≠ u) :
    (db.meetings.find? fun m => m.id == mid && m.userId == u) = none := by
  rw [List.find?_eq_none]
  intro m hm hp
  simp only [Bool.and_eq_true, beq_iff_eq] at hp
  exact h m hm hp.1 hp.2

/-! ## Claim theorems -/

/-- Claim C9: every operation invoked without a resolvable caller identity
fails with Unauthorized; the error return carries no database, so no stored
state is touched. -/
theorem requireUser_gates_every_operation (db : DB) :
    (∀ inp now fid, createMeeting db none inp now fid = .error .unauthorized) ∧
    (∀ inp now, updateMeeting db none inp now = .error .unauthorized) ∧
    (listMeetings db none = .error .unauthorized) ∧
    (∀ i, deleteMeeting db none i = .error .unauthorized) ∧
    (∀ inp now, saveSection db none inp now = .error .unauthorized) ∧
    (∀ inp, deleteSection db none inp = .error .unauthorized) ∧
    (∀ inp now, saveActionItem db none inp now = .error .unauthorized) ∧
    (∀ mid?, listActionItems db none mid? = .error .unauthorized) :=
  ⟨fun _ _ _ => rfl, fun _ _ => rfl, rfl, fun _ => rfl, fun _ _ => rfl,
    fun _ => rfl, fun _ _ => rfl, fun _ => rfl⟩

/-- Claim C10: `listActionItems` with `meetingId = ""` behaves exactly like a
call with no meetingId (the truthiness test skips both the ownership rejection
and the per-meeting filter): it succeeds and returns every action item of the
caller's owned meetings. -/
theorem listActionItems_empty_string_meetingId (db : DB) (u : String) :
    listActionItems db (some u) (some "") = listActionItems db (some u) none ∧
    ∃ l, listActionItems db (some u) (some "") = .ok l :=
  ⟨rfl, ⟨_, rfl⟩⟩

/-- Claim C1: against a meeting id whose stored owner differs from the caller,
each of updateMeeting, deleteMeeting, saveSection, deleteSection and
saveActionItem fails with NotFound; the error return carries no data of the
other user's meeting and no database change. -/
theorem foreign_meeting_is_notFound (db : DB) (u mid : String)
    (h : ∀ m ∈ db.meetings, m.id = mid → m.userId ≠ u) :
    (∀ inp now, inp.id = mid → updateMeeting db (some u) inp now = .error .notFound) ∧
    (deleteMeeting db (some u) mid = .error .notFound) ∧
    (∀ inp now, inp.meetingId = mid → saveSection db (some u) inp now = .error .notFound) ∧
    (∀ inp, inp.meetingId = mid → deleteSection db (some u) inp = .error .notFound) ∧
    (∀ inp now, inp.meetingId = mid → saveActionItem db (some u) inp now = .error .notFound) := by
  have hfind := ownedLookup_eq_none h
  refine ⟨?_, ?_, ?_, ?_, ?_⟩
  · intro inp now hid
    subst hid
    simp [updateMeeting, requireUser, hfind]
    rfl
  · simp [deleteMeeting, requireUser, hfind]
    rfl
  · intro inp now hid
    subst hid
    simp [saveSection, requireUser, hfind]
    rfl
  · intro inp hid
    subst hid
    simp [deleteSection, requireUser, hfind]
    rfl
  · intro inp now hid
    subst hid
    simp [saveActionItem, requireUser, hfind]
    rfl

/-- Witness for C1: `alice` attacks `bob`'s meeting `mb` with all five
operations and gets NotFound each time. -/
theorem foreign_meeting_is_notFound_witness :
    updateMeeting dbMain (some "alice")
        { id := "mb", title := some "x", sourceType := none, sourceUrl := none,
          scheduledAt := none, durationMinutes := none } 10 = .error .notFound ∧
    deleteMeeting dbMain (some "alice") "mb" = .error .notFound ∧
    saveSection dbMain (some "alice")
        { id := none, meetingId := "mb", type := "notes", orderIndex := 1,
          content := "hi" } 10 = .error .notFound ∧
    deleteSection dbMain (some "alice") { id := "s1", meetingId := "mb" } = .error .notFound ∧
    saveActionItem dbMain (some "alice")
        { id := none, meetingId := "mb", assignee := none, description := "d",
          dueDate := none, status := none } 10 = .error .notFound := by
  have h := foreign_meeting_is_notFound dbMain "alice" "mb" (by decide)
  exact ⟨h.1 _ 10 rfl, h.2.1, h.2.2.1 _ 10 rfl, h.2.2.2.1 _ rfl, h.2.2.2.2 _ 10 rfl⟩

/-- Applying `orElse` with a constant fallback is `Option.or`. -/
theorem orElse_eq_or {α : Type} (a b : Option α) : (a.orElse fun _ => b) = a.or b := by
  cases a <;> rfl

/-- Meeting ids are a primary key: under a `Nodup` id column, two stored
meetings with the same id are the same row. -/
theorem meeting_eq_of_id_eq {l : List Meeting} (hnd : (l.map Meeting.id).Nodup)
    {x y : Meeting} (hx : x ∈ l) (hy : y ∈ l) (he : x.id = y.id) : x = y :=
  List.inj_on_of_nodup_map hnd hx hy he

/-- The ownership-filtered lookup of a stored, owned meeting finds exactly
that row (ids are `Nodup`, being a primary key). -/
theorem ownedLookup_eq_some {l : List Meeting} {u : String} {m : Meeting}
    (hnd : (l.map Meeting.id).Nodup) (hmem : m ∈ l)
    (hown : m.userId = u) :
    (l.find? fun x => x.id == m.id && x.userId == u) = some m := by
  induction l with
  | nil => cases hmem
  | cons x xs ih =>
    rcases List.mem_cons.mp hmem with rfl | hmem'
    · rw [List.find?_cons_of_pos]
      simp [hown]
    · rw [List.map_cons, List.nodup_cons] at hnd
      have hx : x.id ≠ m.id := by
        intro he
        exact hnd.1 (he ▸ List.mem_map_of_mem Meeting.id hmem')
      rw [List.find?_cons_of_neg]
      · exact ih hnd.2 hmem'
      · simp [hx]

/-- Claim C5: `updateMeeting` by the owner with none of the five optional
fields present returns the existing row unchanged and leaves the database —
in particular the stored `updatedAt` — untouched. -/
theorem updateMeeting_empty_field_set_is_noop (db : DB) (u : String)
    (inp : UpdateMeetingInput) (now : Nat) (m : Meeting)
    (hnd : (db.meetings.map Meeting.id).Nodup)
    (hmem : m ∈ db.meetings) (hid : m.id = inp.id) (hown : m.userId = u)
    (h1 : inp.title = none) (h2 : inp.sourceType = none) (h3 : inp.sourceUrl = none)
    (h4 : inp.scheduledAt = none) (h5 : inp.durationMinutes = none) :
    updateMeeting db (some u) inp now = .ok (m, db) := by
  have hfind := ownedLookup_eq_some hnd hmem hown
  rw [hid] at hfind
  simp only [updateMeeting, requireUser, pure_bind, hfind,
    UpdateMeetingInput.patchEmpty, h1, h2, h3, h4, h5, Option.isNone_none,
    Bool.and_self, if_true]
  rfl

/-- Witness for C5: `alice` updates her meeting `m1` with an empty field set
and gets the stored row and database back unchanged. -/
theorem updateMeeting_empty_field_set_is_noop_witness :
    updateMeeting dbMain (some "alice")
      { id := "m1", title := none, sourceType := none, sourceUrl := none,
        scheduledAt := none, durationMinutes := none } 42 = .ok (mAlice, dbMain) :=
  updateMeeting_empty_field_set_is_noop dbMain "alice" _ 42 mAlice
    (by decide) (by decide) rfl rfl rfl rfl rfl rfl rfl

/-- Claim C7: a successful `updateMeeting` writes only the fields present in
the input: each present field takes the input value, each absent field keeps
the prior stored value, `id`, `userId` and `createdAt` are never changed, and
every other stored meeting row is untouched. -/
theorem updateMeeting_patches_only_present_fields (db : DB) (u : String)
    (inp : UpdateMeetingInput) (now : Nat) (m m' : Meeting) (db' : DB)
    (hnd : (db.meetings.map Meeting.id).Nodup)
    (hfind : (db.meetings.find? fun x => x.id == inp.id && x.userId == u) = some m)
    (hres : updateMeeting db (some u) inp now = .ok (m', db')) :
    m'.id = m.id ∧ m'.userId = m.userId ∧ m'.createdAt = m.createdAt ∧
    m'.title = inp.title.getD m.title ∧
    m'.sourceType = inp.sourceType.or m.sourceType ∧
    m'.sourceUrl = inp.sourceUrl.or m.sourceUrl ∧
    m'.scheduledAt = inp.scheduledAt.or m.scheduledAt ∧
    m'.durationMinutes = inp.durationMinutes.or m.durationMinutes ∧
    db'.meetings = db.meetings.map fun x =>
      if x.id == inp.id && x.userId == u then m' else x := by
  have hmem : m ∈ db.meetings := List.mem_of_find?_eq_some hfind
  have hpm := List.find?_some hfind
  simp only [Bool.and_eq_true, beq_iff_eq] at hpm
  have hrow : ∀ x ∈ db.meetings, (x.id == inp.id && x.userId == u) = true → x = m := by
    intro x hx hpx
    simp only [Bool.and_eq_true, beq_iff_eq] at hpx
    exact meeting_eq_of_id_eq hnd hx hmem (hpx.1.trans hpm.1.symm)
  rw [updateMeeting] at hres
  simp only [requireUser, pure_bind, hfind] at hres
  by_cases hp : inp.patchEmpty
  · rw [if_pos hp] at hres
    simp only [UpdateMeetingInput.patchEmpty, Bool.and_eq_true,
      Option.isNone_iff_eq_none] at hp
    obtain ⟨⟨⟨⟨e1, e2⟩, e3⟩, e4⟩, e5⟩ := hp
    cases hres
    refine ⟨rfl, rfl, rfl, by simp [e1], by simp [e2], by simp [e3],
      by simp [e4], by simp [e5], ?_⟩
    have : (db.meetings.map fun x =>
        if x.id == inp.id && x.userId == u then m else x) = db.meetings := by
      conv_rhs => rw [← List.map_id db.meetings]
      apply List.map_congr_left
      intro x hx
      by_cases hpx : (x.id == inp.id && x.userId == u) = true
      · rw [if_pos hpx, hrow x hx hpx]
        rfl
      · rw [if_neg hpx]
        rfl
    exact this.symm
  · rw [if_neg hp] at hres
    cases hres
    refine ⟨rfl, rfl, rfl, rfl, orElse_eq_or _ _, orElse_eq_or _ _,
      orElse_eq_or _ _, orElse_eq_or _ _, ?_⟩
    apply List.map_congr_left
    intro x hx
    by_cases hpx : (x.id == inp.id && x.userId == u) = true
    · rw [if_pos hpx, if_pos hpx, hrow x hx hpx]
    · rw [if_neg hpx, if_neg hpx]

/-- The meeting row expected back from the C7 witness update. -/
def mAlicePatched : Meeting :=
  { id := "m1", userId := "alice", title := "New title",
    sourceType := some "upload", sourceUrl := none, scheduledAt := none,
    durationMinutes := none, createdAt := 1, updatedAt := 10 }

/-- The database expected after the C7 witness update. -/
def dbMainPatched : DB :=
  { dbMain with meetings := [mAlicePatched, mAlice2, mBob] }

/-- Witness for C7: `alice` patches title and sourceType of `m1`; the returned
row keeps id, userId, createdAt and the untouched fields, and the stored list
rewrites only the matching row. -/
theorem updateMeeting_patches_only_present_fields_witness :
    mAlicePatched.id = mAlice.id ∧ mAlicePatched.userId = mAlice.userId ∧
    mAlicePatched.createdAt = mAlice.createdAt ∧
    mAlicePatched.title = (some "New title").getD mAlice.title ∧
    mAlicePatched.sourceType = (some "upload").or mAlice.sourceType ∧
    mAlicePatched.sourceUrl = Option.or none mAlice.sourceUrl ∧
    mAlicePatched.scheduledAt = Option.or none mAlice.scheduledAt ∧
    mAlicePatched.durationMinutes = Option.or none mAlice.durationMinutes ∧
    dbMainPatched.meetings = dbMain.meetings.map fun x =>
      if x.id == "m1" && x.userId == "alice" then mAlicePatched else x :=
  updateMeeting_patches_only_present_fields dbMain "alice"
    { id := "m1", title := some "New title", sourceType := some "upload",
      sourceUrl := none, scheduledAt := none, durationMinutes := none }
    10 mAlice mAlicePatched dbMainPatched (by decide) (by decide) rfl

/-- Membership in the computed list of owned meeting ids is the existence of
an owned meeting with that id. -/
theorem ownedIds_contains_eq_any (l : List Meeting) (u mid : String) :
    ((l.filter fun m => m.userId == u).map (·.id)).contains mid
      = l.any fun m => m.userId == u && m.id == mid := by
  rw [Bool.eq_iff_iff]
  simp only [List.elem_iff, List.mem_map, List.mem_filter, List.any_eq_true,
    Bool.and_eq_true, beq_iff_eq]
  constructor
  · rintro ⟨m, ⟨hm, hu⟩, hid⟩
    exact ⟨m, hm, hu, hid⟩
  · rintro ⟨m, hm, hu, hid⟩
    exact ⟨m, ⟨hm, hu⟩, hid⟩

/-- Claim C2 (amended): with no meetingId, `listActionItems` returns exactly
the items whose meetingId belongs to a meeting owned by the caller; with a
non-empty meetingId owned by the caller it returns exactly that meeting's
items; with a non-empty meetingId not among the owned ids it fails with
NotFound.  (An empty-string meetingId is treated as absent — see C10.) -/
theorem listActionItems_exact (db : DB) (u mid : String) :
    (listActionItems db (some u) none =
      .ok (db.actionItems.filter fun it =>
        db.meetings.any fun m => m.userId == u && m.id == it.meetingId)) ∧
    (mid ≠ "" → (db.meetings.any fun m => m.userId == u && m.id == mid) = true →
      listActionItems db (some u) (some mid) =
        .ok (db.actionItems.filter fun it => it.meetingId == mid)) ∧
    (mid ≠ "" → (db.meetings.any fun m => m.userId == u && m.id == mid) = false →
      listActionItems db (some u) (some mid) = .error .notFound) := by
  refine ⟨?_, ?_, ?_⟩
  · have h0 : listActionItems db (some u) none =
        .ok (db.actionItems.filter fun it =>
          ((db.meetings.filter fun m => m.userId == u).map (·.id)).contains
            it.meetingId && true) := rfl
    rw [h0]
    congr 1
    apply List.filter_congr
    intro it _
    rw [Bool.and_true, ownedIds_contains_eq_any]
  · intro hne hany
    have htr : truthy (some mid) = true := by
      simp [truthy, hne]
    have hcon : ((db.meetings.filter fun m => m.userId == u).map (·.id)).contains mid
        = true := by
      rw [ownedIds_contains_eq_any]
      exact hany
    rw [listActionItems]
    simp only [requireUser, pure_bind, Option.getD_some, htr, hcon,
      Bool.not_true, Bool.and_false, Bool.false_eq_true, if_false, if_true]
    congr 1
    apply List.filter_congr
    intro it _
    by_cases hit : (it.meetingId == mid) = true
    · have hmem : it.meetingId = mid := by simpa using hit
      rw [hit, hmem, hcon, Bool.true_and]
    · rw [Bool.eq_false_iff.mpr hit, Bool.and_false]
  · intro hne hnot
    have htr : truthy (some mid) = true := by
      simp [truthy, hne]
    have hcon : ((db.meetings.filter fun m => m.userId == u).map (·.id)).contains mid
        = false := by
      rw [ownedIds_contains_eq_any]
      exact hnot
    rw [listActionItems]
    simp only [requireUser, pure_bind, Option.getD_some, htr, hcon,
      Bool.not_false, Bool.and_true, if_true]
    rfl

/-- Witness for C2 (amended): for `alice`, the no-filter call lists the items
of her meetings, the owned-id call lists exactly meeting `m1`'s items, and an
unowned non-empty id is rejected with NotFound. -/
theorem listActionItems_exact_witness :
    listActionItems dbMain (some "alice") none =
      .ok (dbMain.actionItems.filter fun it =>
        dbMain.meetings.any fun m => m.userId == "alice" && m.id == it.meetingId) ∧
    listActionItems dbMain (some "alice") (some "m1") =
      .ok (dbMain.actionItems.filter fun it => it.meetingId == "m1") ∧
    listActionItems dbMain (some "alice") (some "mb") = .error .notFound := by
  have h1 := listActionItems_exact dbMain "alice" "m1"
  have h2 := listActionItems_exact dbMain "alice" "mb"
  exact ⟨h1.1, h1.2.1 (by decide) (by decide), h2.2.2 (by decide) (by decide)⟩

/-- Counterexample to C2 as stated: the empty string is not among `alice`'s
owned meeting ids, yet `listActionItems` with `meetingId = ""` does not fail
with NotFound — it returns all items of her meetings. -/
theorem listActionItems_empty_string_not_rejected :
    (dbMain.meetings.any fun m => m.userId == "alice" && m.id == "") = false ∧
    listActionItems dbMain (some "alice") (some "") = .ok [iOne] :=
  ⟨by decide, rfl⟩

/-- Claim C4: a successful `saveActionItem` update-by-id is a full replace:
assignee, dueDate and status become exactly the input values (an omitted
optional field is written as absent, overwriting the prior stored value),
description and meetingId become the input values, both createdAt and
updatedAt are stamped to now, and the stored list rewrites exactly the rows
carrying the updated id to the returned item. -/
theorem saveActionItem_update_full_replace (db : DB) (u : String)
    (inp : SaveActionItemInput) (now : Nat) (it' : ActionItem) (db' : DB)
    (hid : truthy inp.id = true)
    (hres : saveActionItem db (some u) inp now = .ok (it', db')) :
    it'.assignee = inp.assignee ∧ it'.dueDate = inp.dueDate ∧
    it'.status = inp.status ∧ it'.description = inp.description ∧
    it'.meetingId = inp.meetingId ∧ it'.createdAt = now ∧ it'.updatedAt = now ∧
    db'.actionItems = db.actionItems.map fun x =>
      if x.id == inp.id then it' else x := by
  rw [saveActionItem] at hres
  simp only [requireUser, pure_bind] at hres
  split at hres
  · simp at hres
  · split at hres
    · split at hres
      · simp at hres
      · next ex heq =>
        split at hres
        · simp at hres
        · cases hres
          refine ⟨rfl, rfl, rfl, rfl, rfl, rfl, rfl, ?_⟩
          show db.actionItems.map _ = db.actionItems.map _
          apply List.map_congr_left
          intro x hx
          by_cases hxi : (x.id == inp.id) = true
          · rw [if_pos hxi, if_pos hxi]
            have h1 : x.id = inp.id := by simpa using hxi
            have h2 : ex.id = inp.id := by simpa using List.find?_some heq
            simp [itemBaseValuesOn, h1, h2]
          · rw [if_neg hxi, if_neg hxi]
    · next h => exact absurd hid h

/-- The action item expected back from the C4 witness call: `alice` updates
item `i1` giving only a description, so the previously set assignee, dueDate
and status are overwritten with absent values. -/
def iOneReplaced : ActionItem :=
  { id := some "i1", meetingId := "m1", assignee := none, description := "d2",
    dueDate := none, status := none, createdAt := 20, updatedAt := 20 }

/-- The database expected after the C4 witness call. -/
def dbItemsReplaced : DB :=
  { dbMain with actionItems := [iOneReplaced, iBob] }

/-- Witness for C4: the update-by-id of item `i1` (which had assignee, dueDate
and status set) writes exactly the input values, absent fields included, and
stamps both timestamps. -/
theorem saveActionItem_update_full_replace_witness :
    iOneReplaced.assignee = none ∧ iOneReplaced.dueDate = none ∧
    iOneReplaced.status = none ∧ iOneReplaced.description = "d2" ∧
    iOneReplaced.meetingId = "m1" ∧ iOneReplaced.createdAt = 20 ∧
    iOneReplaced.updatedAt = 20 ∧
    dbItemsReplaced.actionItems = dbMain.actionItems.map fun x =>
      if x.id == some "i1" then iOneReplaced else x :=
  saveActionItem_update_full_replace dbMain "alice"
    { id := some "i1", meetingId := "m1", assignee := none,
      description := "d2", dueDate := none, status := none }
    20 iOneReplaced dbItemsReplaced rfl rfl

/-- Claim C6: `saveSection` with an id whose stored section belongs to a
different meetingId than the supplied one fails with NotFound even though the
section id exists; the error return carries no database change. -/
theorem saveSection_meetingId_mismatch_notFound (db : DB) (u : String)
    (inp : SaveSectionInput) (now : Nat) (ex : MeetingSection)
    (hid : truthy inp.id = true)
    (hfind : (db.sections.find? fun s => s.id == inp.id) = some ex)
    (hne : ex.meetingId ≠ inp.meetingId) :
    saveSection db (some u) inp now = .error .notFound := by
  rw [saveSection]
  simp only [requireUser, pure_bind]
  cases hm : db.meetings.find? fun m => m.id == inp.meetingId && m.userId == u with
  | none => rfl
  | some mt =>
    rw [if_pos hid, hfind]
    dsimp only
    rw [if_pos (bne_iff_ne.mpr hne)]
    rfl

/-- Witness for C6: section `s2` belongs to meeting `m2`, and the update
supplying `meetingId = "m1"` (a meeting `alice` owns) is rejected. -/
theorem saveSection_meetingId_mismatch_notFound_witness :
    saveSection dbMain (some "alice")
      { id := some "s2", meetingId := "m1", type := "notes", orderIndex := 1,
        content := "x" } 9 = .error .notFound :=
  saveSection_meetingId_mismatch_notFound dbMain "alice" _ 9 sTwo rfl rfl (by decide)

/-- Claim C8 (amended): every successful `saveSection` — the insert as well as
the update-by-id, whose written row replaces the stored one — carries
`createdAt = now`: an update does not keep the stored creation time but
overwrites it with the update time. -/
theorem saveSection_stamps_createdAt (db : DB) (u : String)
    (inp : SaveSectionInput) (now : Nat) (s' : MeetingSection) (db' : DB)
    (hres : saveSection db (some u) inp now = .ok (s', db')) :
    s'.createdAt = now ∧ s' ∈ db'.sections := by
  rw [saveSection] at hres
  simp only [requireUser, pure_bind] at hres
  split at hres
  · simp at hres
  · split at hres
    · split at hres
      · simp at hres
      · next ex heq =>
        split at hres
        · simp at hres
        · cases hres
          refine ⟨rfl, ?_⟩
          show sectionBaseValuesOn inp now ex ∈ db.sections.map _
          have hex : ex ∈ db.sections := List.mem_of_find?_eq_some heq
          have hexid : (ex.id == inp.id) = true := by
            simpa using List.find?_some heq
          have := List.mem_map_of_mem
            (fun x => if (x.id == inp.id) = true then sectionBaseValuesOn inp now x else x) hex
          simpa [hexid] using this
    · cases hres
      exact ⟨rfl, by simp⟩

/-- The section row expected back from the C8 witness update. -/
def sOneReplaced : MeetingSection :=
  { id := some "s1", meetingId := "m1", type := "notes", orderIndex := 1,
    content := "bye", createdAt := 10 }

/-- Witness for C8 (amended): updating section `s1` at time 10 returns a row
stamped `createdAt = 10`, stored in the section table. -/
theorem saveSection_stamps_createdAt_witness :
    sOneReplaced.createdAt = 10 ∧
    sOneReplaced ∈ (DB.mk dbMain.meetings [sOneReplaced, sTwo] dbMain.actionItems).sections :=
  saveSection_stamps_createdAt dbMain "alice"
    { id := some "s1", meetingId := "m1", type := "notes", orderIndex := 1,
      content := "bye" }
    10 sOneReplaced (DB.mk dbMain.meetings [sOneReplaced, sTwo] dbMain.actionItems) rfl

/-- Counterexample to C8 as stated: section `s1` was stored with
`createdAt = 5`; the update-by-id at time 10 leaves it stored with
`createdAt = 10`, not 5. -/
theorem saveSection_update_changes_createdAt :
    sOne.createdAt = 5 ∧
    saveSection dbMain (some "alice")
        { id := some "s1", meetingId := "m1", type := "notes", orderIndex := 1,
          content := "bye" } 10 =
      .ok (sOneReplaced, DB.mk dbMain.meetings [sOneReplaced, sTwo] dbMain.actionItems) ∧
    sOneReplaced.createdAt ≠ 5 :=
  ⟨rfl, rfl, by decide⟩

/-- The section row inserted by the C3 failing input: `saveSection` without an
id inserts `baseValues`, which carries no id at all. -/
def sInsertedNoId : MeetingSection :=
  { id := none, meetingId := "m1", type := "notes", orderIndex := 1,
    content := "hi", createdAt := 7 }

/-- Claim C3, evaluated at the failing input: inserting a new section for an
owned meeting stores and returns a row whose id is absent (`none`) — unlike
`createMeeting`, the handler generates no id and the id column of the table
has no default, so the returned section carries no generated identifier. -/
theorem saveSection_insert_supplies_no_id :
    saveSection dbMain (some "alice")
        { id := none, meetingId := "m1", type := "notes", orderIndex := 1,
          content := "hi" } 7 =
      .ok (sInsertedNoId,
        DB.mk dbMain.meetings (dbMain.sections ++ [sInsertedNoId]) dbMain.actionItems) ∧
    sInsertedNoId.id = none :=
  ⟨rfl, rfl⟩
